import Mathlib

/-!
Shallow embedding of the toy payments engine
(`src/toy_payments/amount.rs` and `src/toy_payments/processor.rs`).

`Amount` wraps the scaled `i64` backing integer (value × 10000) as a Lean
`Int`; every arithmetic operation in the source is componentwise integer
arithmetic, mirrored exactly.  The processor state holds the account map
(`accounts`) and the transaction log (`compressed_transactions`) as
functions into `Option`, mirroring the two `HashMap`s.  `process` follows
the Rust `match` arm by arm; in particular `get_account`
(`entry(..).or_insert_with(Account::new)`) both returns the account value
and inserts a fresh entry when none exists, and in the Dispute / Resolve /
Chargeback arms it is only reached when the transaction-log lookup
succeeds.
-/

namespace ToyPayments

/-- `Amount(i64)` from `amount.rs`: a scaled fixed-point quantity. -/
structure Amount where
  val : Int
deriving DecidableEq, Repr

instance : Add Amount := ⟨fun a b => ⟨a.val + b.val⟩⟩

instance : Sub Amount := ⟨fun a b => ⟨a.val - b.val⟩⟩

instance : Neg Amount := ⟨fun a => ⟨-a.val⟩⟩

instance : LE Amount := ⟨fun a b => a.val ≤ b.val⟩

instance : LT Amount := ⟨fun a b => a.val < b.val⟩

instance (a b : Amount) : Decidable (a ≤ b) := inferInstanceAs (Decidable (a.val ≤ b.val))

instance (a b : Amount) : Decidable (a < b) := inferInstanceAs (Decidable (a.val < b.val))

/-- `Amount::new` / `From<u64>`: whole units scaled by 10000. -/
def Amount.ofWhole (n : Nat) : Amount := ⟨(n : Int) * 10000⟩

/-- `type ClientId = u16` (used only as a map key). -/
abbrev ClientId := Nat

/-- `type TransactionId = u32` (used only as a map key). -/
abbrev TransactionId := Nat

/-- The `TransactionType` enum from `processor.rs`. -/
inductive TransactionType where
  | Chargeback
  | Deposit
  | Dispute
  | Resolve
  | Withdrawal
deriving DecidableEq, Repr

/-- The `Transaction` record from `processor.rs`. -/
structure Transaction where
  ty : TransactionType
  client_id : ClientId
  transaction_id : TransactionId
  amount : Amount
deriving DecidableEq, Repr

/-- The `Account` struct: available funds, held funds, lock flag. -/
structure Account where
  available_funds : Amount
  held_funds : Amount
  is_locked : Bool
deriving DecidableEq, Repr

/-- `Account::new()`: zero available, zero held, unlocked. -/
def Account.new : Account := ⟨⟨0⟩, ⟨0⟩, false⟩

/-- `PaymentProcessor`: the account map and the transaction log. -/
structure PaymentProcessor where
  accounts : ClientId → Option Account
  compressed_transactions : TransactionId → Option Amount

/-- `PaymentProcessor::new()`: both maps empty. -/
def PaymentProcessor.new : PaymentProcessor := ⟨fun _ => none, fun _ => none⟩

/-- `PaymentProcessor::find_transaction`. -/
def find_transaction (p : PaymentProcessor) (tid : TransactionId) : Option Amount :=
  p.compressed_transactions tid

/-- `PaymentProcessor::store_transaction`: `HashMap::insert`. -/
def store_transaction (p : PaymentProcessor) (tid : TransactionId) (a : Amount) :
    PaymentProcessor :=
  { p with compressed_transactions := fun t => if t = tid then some a else p.compressed_transactions t }

/-- Write an account entry into the map (`HashMap` insert / write through
the `&mut Account` reference returned by `get_account`). -/
def set_account (p : PaymentProcessor) (c : ClientId) (a : Account) : PaymentProcessor :=
  { p with accounts := fun c2 => if c2 = c then some a else p.accounts c2 }

/-- `PaymentProcessor::get_account`:
`self.accounts.entry(client_id).or_insert_with(Account::new)`.
Returns the account value together with the state in which the entry is
guaranteed to be present (a fresh empty entry is inserted if absent). -/
def get_account (p : PaymentProcessor) (c : ClientId) : Account × PaymentProcessor :=
  match p.accounts c with
  | some a => (a, p)
  | none => (Account.new, set_account p c Account.new)

/-- `PaymentProcessor::process`, arm by arm from the Rust `match`. -/
def process (p : PaymentProcessor) (t : Transaction) : PaymentProcessor :=
  match t.ty with
  | TransactionType.Deposit =>
    let ap := get_account p t.client_id
    let p1 := set_account ap.2 t.client_id
      { ap.1 with available_funds := ap.1.available_funds + t.amount }
    store_transaction p1 t.transaction_id t.amount
  | TransactionType.Withdrawal =>
    let ap := get_account p t.client_id
    if t.amount ≤ ap.1.available_funds then
      let p1 := set_account ap.2 t.client_id
        { ap.1 with available_funds := ap.1.available_funds - t.amount }
      store_transaction p1 t.transaction_id (-t.amount)
    else
      ap.2
  | TransactionType.Dispute =>
    match find_transaction p t.transaction_id with
    | some txn_amount =>
      let ap := get_account p t.client_id
      set_account ap.2 t.client_id
        { ap.1 with
          available_funds := ap.1.available_funds - txn_amount
          held_funds := ap.1.held_funds + txn_amount }
    | none => p
  | TransactionType.Resolve =>
    match find_transaction p t.transaction_id with
    | some txn_amount =>
      let ap := get_account p t.client_id
      set_account ap.2 t.client_id
        { ap.1 with
          available_funds := ap.1.available_funds + txn_amount
          held_funds := ap.1.held_funds - txn_amount }
    | none => p
  | TransactionType.Chargeback =>
    match find_transaction p t.transaction_id with
    | some txn_amount =>
      let ap := get_account p t.client_id
      set_account ap.2 t.client_id
        { ap.1 with
          held_funds := ap.1.held_funds - txn_amount
          is_locked := true }
    | none => p

/-- Apply a whole input stream in order (the `main` loop over records). -/
def processAll (p : PaymentProcessor) (ts : List Transaction) : PaymentProcessor :=
  ts.foldl process p

/-- The account state observed for a client: the stored entry, or the
lazily-created empty account if none exists yet (`or_insert_with`). -/
def lookup_account (p : PaymentProcessor) (c : ClientId) : Account :=
  (p.accounts c).getD Account.new

/-- The signed contribution of one record to client `c`'s available funds
when applied in state `p`: a deposit for `c` contributes `+amount`, a
withdrawal for `c` that passes the funds check contributes `-amount`, and
everything else contributes nothing. -/
def appliedDelta (p : PaymentProcessor) (t : Transaction) (c : ClientId) : Int :=
  match t.ty with
  | TransactionType.Deposit => if t.client_id = c then t.amount.val else 0
  | TransactionType.Withdrawal =>
    if t.client_id = c ∧ t.amount ≤ (lookup_account p t.client_id).available_funds then
      -t.amount.val
    else 0
  | _ => 0

/-- The exact sum of applied deposit amounts minus successfully applied
withdrawal amounts for client `c` along a record stream started in `p`. -/
def netApplied (p : PaymentProcessor) (ts : List Transaction) (c : ClientId) : Int :=
  match ts with
  | [] => 0
  | t :: rest => appliedDelta p t c + netApplied (process p t) rest c

/-- Ten deposits of 0.1 (scaled: 1000) for client 1, the drift example
from the spec (`test_repeated_addition_no_drift`). -/
def tenTenthDeposits : List Transaction :=
  (List.range 10).map (fun i => ⟨TransactionType.Deposit, 1, i + 1, ⟨1000⟩⟩)

/-! ### Basic lemmas about the state operations -/

theorem Amount.sub_add_cancel (a b : Amount) : a - b + b = a := by
  cases a with
  | mk x =>
    cases b with
    | mk y =>
      show Amount.mk (x - y + y) = Amount.mk x
      rw [Int.sub_add_cancel]

theorem Amount.add_sub_cancel (a b : Amount) : a + b - b = a := by
  cases a with
  | mk x =>
    cases b with
    | mk y =>
      show Amount.mk (x + y - y) = Amount.mk x
      rw [Int.add_sub_cancel]

theorem Amount.relocate_sub_add (a b v : Amount) : (a - v) + (b + v) = a + b := by
  cases a with
  | mk x =>
    cases b with
    | mk y =>
      cases v with
      | mk z =>
        show Amount.mk (x - z + (y + z)) = Amount.mk (x + y)
        congr 1
        ring

theorem Amount.relocate_add_sub (a b v : Amount) : (a + v) + (b - v) = a + b := by
  cases a with
  | mk x =>
    cases b with
    | mk y =>
      cases v with
      | mk z =>
        show Amount.mk (x + z + (y - z)) = Amount.mk (x + y)
        congr 1
        ring

theorem Amount.add_val (a b : Amount) : (a + b).val = a.val + b.val := rfl

theorem Amount.sub_val (a b : Amount) : (a - b).val = a.val - b.val := rfl

theorem set_account_accounts (p : PaymentProcessor) (c : ClientId) (a : Account)
    (c2 : ClientId) :
    (set_account p c a).accounts c2 = if c2 = c then some a else p.accounts c2 := rfl

theorem set_account_log (p : PaymentProcessor) (c : ClientId) (a : Account) :
    (set_account p c a).compressed_transactions = p.compressed_transactions := rfl

theorem store_transaction_accounts (p : PaymentProcessor) (tid : TransactionId) (a : Amount) :
    (store_transaction p tid a).accounts = p.accounts := rfl

theorem store_transaction_log (p : PaymentProcessor) (tid : TransactionId) (a : Amount)
    (t2 : TransactionId) :
    (store_transaction p tid a).compressed_transactions t2 =
      if t2 = tid then some a else p.compressed_transactions t2 := rfl

theorem get_account_fst (p : PaymentProcessor) (c : ClientId) :
    (get_account p c).1 = lookup_account p c := by
  unfold get_account lookup_account
  cases p.accounts c <;> rfl

theorem get_account_snd_accounts (p : PaymentProcessor) (c : ClientId) (c2 : ClientId) :
    (get_account p c).2.accounts c2 =
      if c2 = c then some (lookup_account p c) else p.accounts c2 := by
  unfold get_account lookup_account
  cases h : p.accounts c with
  | none => rfl
  | some a =>
    simp only [Option.getD_some]
    by_cases hc : c2 = c
    · subst hc; simp [h]
    · simp [hc]

theorem get_account_snd_log (p : PaymentProcessor) (c : ClientId) :
    (get_account p c).2.compressed_transactions = p.compressed_transactions := by
  unfold get_account
  cases p.accounts c <;> rfl

/-! ### Arm-by-arm characterization of `process` -/

theorem process_deposit_accounts (p : PaymentProcessor) (t : Transaction)
    (h : t.ty = TransactionType.Deposit) (c : ClientId) :
    (process p t).accounts c =
      if c = t.client_id then
        some { lookup_account p t.client_id with
               available_funds := (lookup_account p t.client_id).available_funds + t.amount }
      else p.accounts c := by
  obtain ⟨ty, cid, tid, amt⟩ := t
  subst h
  simp only [process, store_transaction, set_account_accounts, get_account_fst]
  by_cases hc : c = cid
  · simp [hc]
  · simp [hc, get_account_snd_accounts]

theorem process_deposit_log (p : PaymentProcessor) (t : Transaction)
    (h : t.ty = TransactionType.Deposit) (tid2 : TransactionId) :
    (process p t).compressed_transactions tid2 =
      if tid2 = t.transaction_id then some t.amount else p.compressed_transactions tid2 := by
  obtain ⟨ty, cid, tid, amt⟩ := t
  subst h
  simp only [process, store_transaction, set_account_log, get_account_snd_log]

theorem process_withdrawal_applied_accounts (p : PaymentProcessor) (t : Transaction)
    (h : t.ty = TransactionType.Withdrawal)
    (hok : t.amount ≤ (lookup_account p t.client_id).available_funds) (c : ClientId) :
    (process p t).accounts c =
      if c = t.client_id then
        some { lookup_account p t.client_id with
               available_funds := (lookup_account p t.client_id).available_funds - t.amount }
      else p.accounts c := by
  obtain ⟨ty, cid, tid, amt⟩ := t
  subst h
  simp only [process, get_account_fst] at hok ⊢
  rw [if_pos hok]
  simp only [store_transaction, set_account_accounts, get_account_fst]
  by_cases hc : c = cid
  · simp [hc]
  · simp [hc, get_account_snd_accounts]

theorem process_withdrawal_applied_log (p : PaymentProcessor) (t : Transaction)
    (h : t.ty = TransactionType.Withdrawal)
    (hok : t.amount ≤ (lookup_account p t.client_id).available_funds) (tid2 : TransactionId) :
    (process p t).compressed_transactions tid2 =
      if tid2 = t.transaction_id then some (-t.amount) else p.compressed_transactions tid2 := by
  obtain ⟨ty, cid, tid, amt⟩ := t
  subst h
  simp only [process, get_account_fst] at hok ⊢
  rw [if_pos hok]
  simp only [store_transaction, set_account_log, get_account_snd_log]

theorem process_withdrawal_failed_accounts (p : PaymentProcessor) (t : Transaction)
    (h : t.ty = TransactionType.Withdrawal)
    (hfail : ¬ t.amount ≤ (lookup_account p t.client_id).available_funds) (c : ClientId) :
    (process p t).accounts c =
      if c = t.client_id then some (lookup_account p t.client_id) else p.accounts c := by
  obtain ⟨ty, cid, tid, amt⟩ := t
  subst h
  simp only [process, get_account_fst] at hfail ⊢
  rw [if_neg hfail]
  exact get_account_snd_accounts p cid c

theorem process_withdrawal_failed_log (p : PaymentProcessor) (t : Transaction)
    (h : t.ty = TransactionType.Withdrawal)
    (hfail : ¬ t.amount ≤ (lookup_account p t.client_id).available_funds) :
    (process p t).compressed_transactions = p.compressed_transactions := by
  obtain ⟨ty, cid, tid, amt⟩ := t
  subst h
  simp only [process, get_account_fst] at hfail ⊢
  rw [if_neg hfail]
  exact get_account_snd_log p cid

theorem process_dispute_hit_accounts (p : PaymentProcessor) (t : Transaction)
    (h : t.ty = TransactionType.Dispute) (v : Amount)
    (hf : find_transaction p t.transaction_id = some v) (c : ClientId) :
    (process p t).accounts c =
      if c = t.client_id then
        some { lookup_account p t.client_id with
               available_funds := (lookup_account p t.client_id).available_funds - v
               held_funds := (lookup_account p t.client_id).held_funds + v }
      else p.accounts c := by
  obtain ⟨ty, cid, tid, amt⟩ := t
  subst h
  simp only [process]
  rw [hf]
  simp only [set_account_accounts, get_account_fst]
  by_cases hc : c = cid
  · simp [hc]
  · simp [hc, get_account_snd_accounts]

theorem process_resolve_hit_accounts (p : PaymentProcessor) (t : Transaction)
    (h : t.ty = TransactionType.Resolve) (v : Amount)
    (hf : find_transaction p t.transaction_id = some v) (c : ClientId) :
    (process p t).accounts c =
      if c = t.client_id then
        some { lookup_account p t.client_id with
               available_funds := (lookup_account p t.client_id).available_funds + v
               held_funds := (lookup_account p t.client_id).held_funds - v }
      else p.accounts c := by
  obtain ⟨ty, cid, tid, amt⟩ := t
  subst h
  simp only [process]
  rw [hf]
  simp only [set_account_accounts, get_account_fst]
  by_cases hc : c = cid
  · simp [hc]
  · simp [hc, get_account_snd_accounts]

theorem process_chargeback_hit_accounts (p : PaymentProcessor) (t : Transaction)
    (h : t.ty = TransactionType.Chargeback) (v : Amount)
    (hf : find_transaction p t.transaction_id = some v) (c : ClientId) :
    (process p t).accounts c =
      if c = t.client_id then
        some { lookup_account p t.client_id with
               held_funds := (lookup_account p t.client_id).held_funds - v
               is_locked := true }
      else p.accounts c := by
  obtain ⟨ty, cid, tid, amt⟩ := t
  subst h
  simp only [process]
  rw [hf]
  simp only [set_account_accounts, get_account_fst]
  by_cases hc : c = cid
  · simp [hc]
  · simp [hc, get_account_snd_accounts]

theorem process_dispute_family_log (p : PaymentProcessor) (t : Transaction)
    (h : t.ty = TransactionType.Dispute ∨ t.ty = TransactionType.Resolve ∨
         t.ty = TransactionType.Chargeback) :
    (process p t).compressed_transactions = p.compressed_transactions := by
  obtain ⟨ty, cid, tid, amt⟩ := t
  rcases h with h | h | h <;> subst h <;>
    simp only [process] <;>
    cases hf : find_transaction p tid <;>
    simp [hf, set_account_log, get_account_snd_log]

theorem process_dispute_family_miss (p : PaymentProcessor) (t : Transaction)
    (h : t.ty = TransactionType.Dispute ∨ t.ty = TransactionType.Resolve ∨
         t.ty = TransactionType.Chargeback)
    (hf : find_transaction p t.transaction_id = none) :
    process p t = p := by
  obtain ⟨ty, cid, tid, amt⟩ := t
  rcases h with h | h | h <;> subst h <;> simp only [process] <;> rw [hf]

/-- A record never touches the account map at any client other than its own. -/
theorem process_accounts_other (p : PaymentProcessor) (t : Transaction) (c : ClientId)
    (h : c ≠ t.client_id) : (process p t).accounts c = p.accounts c := by
  cases hty : t.ty
  case Deposit =>
    rw [process_deposit_accounts p t hty c, if_neg h]
  case Withdrawal =>
    by_cases hok : t.amount ≤ (lookup_account p t.client_id).available_funds
    · rw [process_withdrawal_applied_accounts p t hty hok c, if_neg h]
    · rw [process_withdrawal_failed_accounts p t hty hok c, if_neg h]
  case Dispute =>
    cases hf : find_transaction p t.transaction_id with
    | none => rw [process_dispute_family_miss p t (Or.inl hty) hf]
    | some v => rw [process_dispute_hit_accounts p t hty v hf c, if_neg h]
  case Resolve =>
    cases hf : find_transaction p t.transaction_id with
    | none => rw [process_dispute_family_miss p t (Or.inr (Or.inl hty)) hf]
    | some v => rw [process_resolve_hit_accounts p t hty v hf c, if_neg h]
  case Chargeback =>
    cases hf : find_transaction p t.transaction_id with
    | none => rw [process_dispute_family_miss p t (Or.inr (Or.inr hty)) hf]
    | some v => rw [process_chargeback_hit_accounts p t hty v hf c, if_neg h]

/-- An account entry present before a call is still present after it. -/
theorem process_preserves_entry (p : PaymentProcessor) (t : Transaction) (c : ClientId)
    (a : Account) (ha : p.accounts c = some a) :
    ∃ b : Account, (process p t).accounts c = some b := by
  by_cases hc : c = t.client_id
  · cases hty : t.ty with
    | Deposit =>
      exact ⟨_, by rw [process_deposit_accounts p t hty c, if_pos hc]⟩
    | Withdrawal =>
      by_cases hok : t.amount ≤ (lookup_account p t.client_id).available_funds
      · exact ⟨_, by rw [process_withdrawal_applied_accounts p t hty hok c, if_pos hc]⟩
      · exact ⟨_, by rw [process_withdrawal_failed_accounts p t hty hok c, if_pos hc]⟩
    | Dispute =>
      cases hf : find_transaction p t.transaction_id with
      | none => exact ⟨a, by rw [process_dispute_family_miss p t (Or.inl hty) hf]; exact ha⟩
      | some v => exact ⟨_, by rw [process_dispute_hit_accounts p t hty v hf c, if_pos hc]⟩
    | Resolve =>
      cases hf : find_transaction p t.transaction_id with
      | none =>
        exact ⟨a, by rw [process_dispute_family_miss p t (Or.inr (Or.inl hty)) hf]; exact ha⟩
      | some v => exact ⟨_, by rw [process_resolve_hit_accounts p t hty v hf c, if_pos hc]⟩
    | Chargeback =>
      cases hf : find_transaction p t.transaction_id with
      | none =>
        exact ⟨a, by rw [process_dispute_family_miss p t (Or.inr (Or.inr hty)) hf]; exact ha⟩
      | some v => exact ⟨_, by rw [process_chargeback_hit_accounts p t hty v hf c, if_pos hc]⟩
  · exact ⟨a, by rw [process_accounts_other p t c hc]; exact ha⟩

/-- One step of the exact-sum accounting: a Deposit or Withdrawal changes a
client's available funds by exactly its `appliedDelta` contribution. -/
theorem process_available_delta (p : PaymentProcessor) (t : Transaction) (c : ClientId)
    (h : t.ty = TransactionType.Deposit ∨ t.ty = TransactionType.Withdrawal) :
    (lookup_account (process p t) c).available_funds.val
      = (lookup_account p c).available_funds.val + appliedDelta p t c := by
  rcases h with h | h
  · have hdelta : appliedDelta p t c = if t.client_id = c then t.amount.val else 0 := by
      unfold appliedDelta
      rw [h]
    rw [hdelta]
    by_cases hc : t.client_id = c
    · rw [if_pos hc]
      unfold lookup_account
      rw [process_deposit_accounts p t h c, if_pos hc.symm, ← hc]
      simp [lookup_account, Amount.add_val]
    · rw [if_neg hc, Int.add_zero]
      unfold lookup_account
      rw [process_accounts_other p t c (fun e => hc e.symm)]
  · by_cases hok : t.amount ≤ (lookup_account p t.client_id).available_funds
    · have hdelta : appliedDelta p t c = if t.client_id = c then -t.amount.val else 0 := by
        unfold appliedDelta
        rw [h]
        show (if t.client_id = c ∧ t.amount ≤ (lookup_account p t.client_id).available_funds
          then -t.amount.val else 0) = _
        by_cases hc : t.client_id = c
        · rw [if_pos ⟨hc, hok⟩, if_pos hc]
        · rw [if_neg (fun hand => hc hand.1), if_neg hc]
      rw [hdelta]
      by_cases hc : t.client_id = c
      · rw [if_pos hc]
        unfold lookup_account
        rw [process_withdrawal_applied_accounts p t h hok c, if_pos hc.symm, ← hc]
        simp [lookup_account, Amount.sub_val]
        ring
      · rw [if_neg hc, Int.add_zero]
        unfold lookup_account
        rw [process_accounts_other p t c (fun e => hc e.symm)]
    · have hdelta : appliedDelta p t c = 0 := by
        unfold appliedDelta
        rw [h]
        show (if t.client_id = c ∧ t.amount ≤ (lookup_account p t.client_id).available_funds
          then -t.amount.val else 0) = _
        rw [if_neg (fun hand => hok hand.2)]
      rw [hdelta, Int.add_zero]
      by_cases hc : t.client_id = c
      · unfold lookup_account
        rw [process_withdrawal_failed_accounts p t h hok c, if_pos hc.symm, ← hc]
        simp [lookup_account]
      · unfold lookup_account
        rw [process_accounts_other p t c (fun e => hc e.symm)]

/-- Folding a stream of Deposits and Withdrawals adds exactly the net
applied contribution to each client's available funds. -/
theorem available_foldl (p : PaymentProcessor) (ts : List Transaction) (c : ClientId)
    (hts : ∀ t ∈ ts, t.ty = TransactionType.Deposit ∨ t.ty = TransactionType.Withdrawal) :
    (lookup_account (processAll p ts) c).available_funds.val
      = (lookup_account p c).available_funds.val + netApplied p ts c := by
  induction ts generalizing p with
  | nil => simp [processAll, netApplied]
  | cons t rest ih =>
    simp only [processAll, List.foldl_cons, netApplied]
    have h2 := ih (process p t) (fun u hu => hts u (List.mem_cons_of_mem t hu))
    simp only [processAll] at h2
    rw [h2, process_available_delta p t c (hts t (List.mem_cons_self t rest))]
    ring

/-! ### Claim theorems -/

/-- C1 counterexample: the claim says a Dispute whose `transaction_id` has no
log entry still creates an empty account for its `client_id`.  In the source,
`get_account` is only reached inside the `if let Some(..)` on the log lookup,
so no account is created: after a Dispute for client 7 / unknown tx 99 from
the empty state, client 7 still has no account entry at all. -/
theorem dispute_unknown_tx_creates_no_account :
    (process PaymentProcessor.new ⟨TransactionType.Dispute, 7, 99, ⟨0⟩⟩).accounts 7 = none :=
  rfl

/-- C1 (amended): a Dispute, Resolve, or Chargeback whose `transaction_id`
has no entry in the transaction log leaves the processor state entirely
unchanged — in particular it does not create an account for its
`client_id`. -/
theorem dispute_family_unknown_tx_is_noop (p : PaymentProcessor) (t : Transaction)
    (h : t.ty = TransactionType.Dispute ∨ t.ty = TransactionType.Resolve ∨
         t.ty = TransactionType.Chargeback)
    (hf : find_transaction p t.transaction_id = none) :
    process p t = p :=
  process_dispute_family_miss p t h hf

/-- C1 witness: a Resolve for client 3 / unknown tx 42 from the empty state
is a complete no-op. -/
theorem dispute_family_unknown_tx_is_noop_witness :
    process PaymentProcessor.new ⟨TransactionType.Resolve, 3, 42, ⟨5⟩⟩ = PaymentProcessor.new :=
  dispute_family_unknown_tx_is_noop PaymentProcessor.new
    ⟨TransactionType.Resolve, 3, 42, ⟨5⟩⟩ (Or.inr (Or.inl rfl)) rfl

/-- C2 counterexample: the claim says a Withdrawal exceeding the available
funds leaves the processor state exactly as before the call.  In the source
the Withdrawal arm calls `get_account` (which lazily inserts an empty entry)
before the funds check, so a failed withdrawal for a fresh client does
change the state: it creates an empty account. -/
theorem failed_withdrawal_creates_account :
    PaymentProcessor.new.accounts 1 = none ∧
    (process PaymentProcessor.new ⟨TransactionType.Withdrawal, 1, 1, ⟨50000⟩⟩).accounts 1 =
      some Account.new := by
  exact ⟨rfl, rfl⟩

/-- C2 (amended): a Withdrawal whose amount exceeds the current available
funds writes no log entry and changes no account's funds; the only state
change is the lazy creation of an empty account entry for the record's
`client_id` when none exists (an existing entry is left exactly as it
was). -/
theorem failed_withdrawal_only_creates_account (p : PaymentProcessor) (t : Transaction)
    (h : t.ty = TransactionType.Withdrawal)
    (hgt : (lookup_account p t.client_id).available_funds < t.amount) :
    (process p t).compressed_transactions = p.compressed_transactions ∧
    (∀ c : ClientId, (process p t).accounts c =
      if c = t.client_id then some (lookup_account p c) else p.accounts c) := by
  have hfail : ¬ t.amount ≤ (lookup_account p t.client_id).available_funds :=
    Int.not_le.mpr hgt
  refine ⟨process_withdrawal_failed_log p t h hfail, fun c => ?_⟩
  rw [process_withdrawal_failed_accounts p t h hfail c]
  by_cases hc : c = t.client_id
  · rw [if_pos hc, if_pos hc, hc]
  · rw [if_neg hc, if_neg hc]

/-- C2 witness: a withdrawal of 5.0 from the empty state (available 0)
fails, and its only effect is the freshly created empty account entry. -/
theorem failed_withdrawal_only_creates_account_witness :
    (process PaymentProcessor.new ⟨TransactionType.Withdrawal, 1, 1, ⟨50000⟩⟩).accounts 1 =
      some (lookup_account PaymentProcessor.new 1) := by
  have h := (failed_withdrawal_only_creates_account PaymentProcessor.new
    ⟨TransactionType.Withdrawal, 1, 1, ⟨50000⟩⟩ rfl (by decide)).2 1
  simpa using h

/-- C9: the state produced by a Dispute, Resolve, or Chargeback does not
depend on the record's `amount` field — the engine reads the amount only
from the transaction log. -/
theorem dispute_family_amount_independent (p : PaymentProcessor) (ty : TransactionType)
    (cid : ClientId) (tid : TransactionId) (a1 a2 : Amount)
    (h : ty = TransactionType.Dispute ∨ ty = TransactionType.Resolve ∨
         ty = TransactionType.Chargeback) :
    process p ⟨ty, cid, tid, a1⟩ = process p ⟨ty, cid, tid, a2⟩ := by
  rcases h with h | h | h <;> subst h <;> rfl

/-- C9 witness: two Chargeback records differing only in their amount
produce the same state. -/
theorem dispute_family_amount_independent_witness :
    process PaymentProcessor.new ⟨TransactionType.Chargeback, 1, 5, ⟨77⟩⟩ =
      process PaymentProcessor.new ⟨TransactionType.Chargeback, 1, 5, ⟨0⟩⟩ :=
  dispute_family_amount_independent PaymentProcessor.new TransactionType.Chargeback 1 5
    ⟨77⟩ ⟨0⟩ (Or.inr (Or.inr rfl))

/-- C10: every account of a client other than the record's `client_id` is
completely unchanged by `process`, and an account entry present before the
call is never removed by it. -/
theorem process_frame (p : PaymentProcessor) (t : Transaction) (c : ClientId) :
    (c ≠ t.client_id → (process p t).accounts c = p.accounts c) ∧
    (∀ a : Account, p.accounts c = some a →
      ∃ b : Account, (process p t).accounts c = some b) :=
  ⟨fun h => process_accounts_other p t c h,
   fun a ha => process_preserves_entry p t c a ha⟩

/-- C10 witness: a deposit for client 1 leaves client 2's (absent) entry
untouched. -/
theorem process_frame_witness :
    (process PaymentProcessor.new ⟨TransactionType.Deposit, 1, 1, ⟨10000⟩⟩).accounts 2 =
      PaymentProcessor.new.accounts 2 :=
  (process_frame PaymentProcessor.new ⟨TransactionType.Deposit, 1, 1, ⟨10000⟩⟩ 2).1
    (by decide)

/-- C3: a Deposit writes `+amount` under its `transaction_id` into the
transaction log, a successfully applied Withdrawal writes the negated
amount `-amount`, and Dispute / Resolve / Chargeback leave the log
entirely unchanged. -/
theorem log_write_discipline (p : PaymentProcessor) (t : Transaction) :
    (t.ty = TransactionType.Deposit →
      (process p t).compressed_transactions t.transaction_id = some t.amount) ∧
    (t.ty = TransactionType.Withdrawal →
      t.amount ≤ (lookup_account p t.client_id).available_funds →
      (process p t).compressed_transactions t.transaction_id = some (-t.amount)) ∧
    ((t.ty = TransactionType.Dispute ∨ t.ty = TransactionType.Resolve ∨
      t.ty = TransactionType.Chargeback) →
      (process p t).compressed_transactions = p.compressed_transactions) :=
  ⟨fun h => by rw [process_deposit_log p t h, if_pos rfl],
   fun h hok => by rw [process_withdrawal_applied_log p t h hok, if_pos rfl],
   fun h => process_dispute_family_log p t h⟩

/-- C3 witness: a deposit of 3.0 under tx 5 stores `+3.0` in the log. -/
theorem log_write_discipline_witness :
    (process PaymentProcessor.new
      ⟨TransactionType.Deposit, 2, 5, ⟨30000⟩⟩).compressed_transactions 5 = some ⟨30000⟩ :=
  (log_write_discipline PaymentProcessor.new ⟨TransactionType.Deposit, 2, 5, ⟨30000⟩⟩).1 rfl

/-- C4: for any logged transaction id, a Dispute followed by a Resolve for
the same id (both naming client `cid`) restores that client's available and
held funds to their pre-dispute values. -/
theorem dispute_resolve_roundtrip (p : PaymentProcessor) (cid : ClientId)
    (tid : TransactionId) (a1 a2 v : Amount)
    (hf : find_transaction p tid = some v) :
    (lookup_account
        (process (process p ⟨TransactionType.Dispute, cid, tid, a1⟩)
          ⟨TransactionType.Resolve, cid, tid, a2⟩) cid).available_funds =
      (lookup_account p cid).available_funds ∧
    (lookup_account
        (process (process p ⟨TransactionType.Dispute, cid, tid, a1⟩)
          ⟨TransactionType.Resolve, cid, tid, a2⟩) cid).held_funds =
      (lookup_account p cid).held_funds := by
  have hlog : find_transaction (process p ⟨TransactionType.Dispute, cid, tid, a1⟩) tid
      = some v := by
    show (process p ⟨TransactionType.Dispute, cid, tid, a1⟩).compressed_transactions tid
      = some v
    rw [process_dispute_family_log p ⟨TransactionType.Dispute, cid, tid, a1⟩ (Or.inl rfl)]
    exact hf
  have h1 : lookup_account (process p ⟨TransactionType.Dispute, cid, tid, a1⟩) cid =
      { lookup_account p cid with
        available_funds := (lookup_account p cid).available_funds - v
        held_funds := (lookup_account p cid).held_funds + v } := by
    unfold lookup_account
    rw [process_dispute_hit_accounts p ⟨TransactionType.Dispute, cid, tid, a1⟩ rfl v hf cid,
      if_pos rfl]
    rfl
  have h2 : lookup_account
      (process (process p ⟨TransactionType.Dispute, cid, tid, a1⟩)
        ⟨TransactionType.Resolve, cid, tid, a2⟩) cid =
      { lookup_account (process p ⟨TransactionType.Dispute, cid, tid, a1⟩) cid with
        available_funds :=
          (lookup_account (process p
            ⟨TransactionType.Dispute, cid, tid, a1⟩) cid).available_funds + v
        held_funds :=
          (lookup_account (process p
            ⟨TransactionType.Dispute, cid, tid, a1⟩) cid).held_funds - v } := by
    unfold lookup_account
    rw [process_resolve_hit_accounts (process p ⟨TransactionType.Dispute, cid, tid, a1⟩)
      ⟨TransactionType.Resolve, cid, tid, a2⟩ rfl v hlog cid, if_pos rfl]
    rfl
  rw [h2, h1]
  exact ⟨Amount.sub_add_cancel _ v, Amount.add_sub_cancel _ v⟩

/-- C4 witness: deposit 10.0 under tx 1, then dispute and resolve tx 1; the
available and held funds of client 1 return to 10.0 and 0. -/
theorem dispute_resolve_roundtrip_witness :
    (lookup_account
        (process (process (process PaymentProcessor.new
            ⟨TransactionType.Deposit, 1, 1, ⟨100000⟩⟩)
          ⟨TransactionType.Dispute, 1, 1, ⟨0⟩⟩)
          ⟨TransactionType.Resolve, 1, 1, ⟨0⟩⟩) 1).available_funds =
      (lookup_account (process PaymentProcessor.new
        ⟨TransactionType.Deposit, 1, 1, ⟨100000⟩⟩) 1).available_funds :=
  (dispute_resolve_roundtrip
    (process PaymentProcessor.new ⟨TransactionType.Deposit, 1, 1, ⟨100000⟩⟩)
    1 1 ⟨0⟩ ⟨0⟩ ⟨100000⟩ rfl).1

/-- C5: a Dispute or Resolve never changes any account's total funds
`available + held`; it only relocates funds between the two fields. -/
theorem dispute_resolve_preserve_total (p : PaymentProcessor) (t : Transaction)
    (c : ClientId)
    (h : t.ty = TransactionType.Dispute ∨ t.ty = TransactionType.Resolve) :
    (lookup_account (process p t) c).available_funds +
        (lookup_account (process p t) c).held_funds =
      (lookup_account p c).available_funds + (lookup_account p c).held_funds := by
  by_cases hc : c = t.client_id
  · rcases h with h | h
    · cases hf : find_transaction p t.transaction_id with
      | none => rw [process_dispute_family_miss p t (Or.inl h) hf]
      | some v =>
        unfold lookup_account
        rw [process_dispute_hit_accounts p t h v hf c, if_pos hc, hc]
        exact Amount.relocate_sub_add _ _ v
    · cases hf : find_transaction p t.transaction_id with
      | none => rw [process_dispute_family_miss p t (Or.inr (Or.inl h)) hf]
      | some v =>
        unfold lookup_account
        rw [process_resolve_hit_accounts p t h v hf c, if_pos hc, hc]
        exact Amount.relocate_add_sub _ _ v
  · unfold lookup_account
    rw [process_accounts_other p t c hc]

/-- C5 witness: disputing the logged deposit of 10.0 leaves client 1's
total funds unchanged. -/
theorem dispute_resolve_preserve_total_witness :
    (lookup_account (process
        (process PaymentProcessor.new ⟨TransactionType.Deposit, 1, 1, ⟨100000⟩⟩)
        ⟨TransactionType.Dispute, 1, 1, ⟨0⟩⟩) 1).available_funds +
      (lookup_account (process
        (process PaymentProcessor.new ⟨TransactionType.Deposit, 1, 1, ⟨100000⟩⟩)
        ⟨TransactionType.Dispute, 1, 1, ⟨0⟩⟩) 1).held_funds =
    (lookup_account (process PaymentProcessor.new
        ⟨TransactionType.Deposit, 1, 1, ⟨100000⟩⟩) 1).available_funds +
      (lookup_account (process PaymentProcessor.new
        ⟨TransactionType.Deposit, 1, 1, ⟨100000⟩⟩) 1).held_funds :=
  dispute_resolve_preserve_total
    (process PaymentProcessor.new ⟨TransactionType.Deposit, 1, 1, ⟨100000⟩⟩)
    ⟨TransactionType.Dispute, 1, 1, ⟨0⟩⟩ 1 (Or.inl rfl)

/-- C7: the lock flag is monotonic — an account observed locked before a
call of `process` (with a record of any type) is still locked after it. -/
theorem locked_monotone (p : PaymentProcessor) (t : Transaction) (c : ClientId)
    (h : (lookup_account p c).is_locked = true) :
    (lookup_account (process p t) c).is_locked = true := by
  by_cases hc : c = t.client_id
  · rw [hc] at h ⊢
    cases hty : t.ty with
    | Deposit =>
      unfold lookup_account
      rw [process_deposit_accounts p t hty t.client_id, if_pos rfl]
      exact h
    | Withdrawal =>
      by_cases hok : t.amount ≤ (lookup_account p t.client_id).available_funds
      · unfold lookup_account
        rw [process_withdrawal_applied_accounts p t hty hok t.client_id, if_pos rfl]
        exact h
      · unfold lookup_account
        rw [process_withdrawal_failed_accounts p t hty hok t.client_id, if_pos rfl]
        exact h
    | Dispute =>
      cases hf : find_transaction p t.transaction_id with
      | none => rw [process_dispute_family_miss p t (Or.inl hty) hf]; exact h
      | some v =>
        unfold lookup_account
        rw [process_dispute_hit_accounts p t hty v hf t.client_id, if_pos rfl]
        exact h
    | Resolve =>
      cases hf : find_transaction p t.transaction_id with
      | none => rw [process_dispute_family_miss p t (Or.inr (Or.inl hty)) hf]; exact h
      | some v =>
        unfold lookup_account
        rw [process_resolve_hit_accounts p t hty v hf t.client_id, if_pos rfl]
        exact h
    | Chargeback =>
      cases hf : find_transaction p t.transaction_id with
      | none => rw [process_dispute_family_miss p t (Or.inr (Or.inr hty)) hf]; exact h
      | some v =>
        unfold lookup_account
        rw [process_chargeback_hit_accounts p t hty v hf t.client_id, if_pos rfl]
        rfl
  · unfold lookup_account
    rw [process_accounts_other p t c hc]
    exact h

/-- C7 witness: after a deposit, dispute, and chargeback lock client 1's
account, a further deposit leaves it locked. -/
theorem locked_monotone_witness :
    (lookup_account (process
        (processAll PaymentProcessor.new
          [⟨TransactionType.Deposit, 1, 1, ⟨100000⟩⟩,
           ⟨TransactionType.Dispute, 1, 1, ⟨0⟩⟩,
           ⟨TransactionType.Chargeback, 1, 1, ⟨0⟩⟩])
        ⟨TransactionType.Deposit, 1, 9, ⟨50000⟩⟩) 1).is_locked = true :=
  locked_monotone
    (processAll PaymentProcessor.new
      [⟨TransactionType.Deposit, 1, 1, ⟨100000⟩⟩,
       ⟨TransactionType.Dispute, 1, 1, ⟨0⟩⟩,
       ⟨TransactionType.Chargeback, 1, 1, ⟨0⟩⟩])
    ⟨TransactionType.Deposit, 1, 9, ⟨50000⟩⟩ 1 (by decide)

/-- C8: the end-to-end scenario — deposit 100, withdraw 20, deposit 50,
dispute tx 2, chargeback tx 2 — leaves client 1 with available 150.0000,
held 0.0000, locked. -/
theorem end_to_end_chargeback_scenario :
    lookup_account (processAll PaymentProcessor.new
      [⟨TransactionType.Deposit, 1, 1, Amount.ofWhole 100⟩,
       ⟨TransactionType.Withdrawal, 1, 2, Amount.ofWhole 20⟩,
       ⟨TransactionType.Deposit, 1, 3, Amount.ofWhole 50⟩,
       ⟨TransactionType.Dispute, 1, 2, ⟨0⟩⟩,
       ⟨TransactionType.Chargeback, 1, 2, ⟨0⟩⟩]) 1 =
      ⟨Amount.ofWhole 150, ⟨0⟩, true⟩ := by
  decide

/-- C6: for any stream of Deposit and Withdrawal records applied from the
empty processor state, each client's final available funds (on the scaled
integer representation) equals the exact sum of that client's applied
deposit amounts minus its successfully applied withdrawal amounts. -/
theorem available_eq_net_applied (ts : List Transaction)
    (hts : ∀ t ∈ ts, t.ty = TransactionType.Deposit ∨ t.ty = TransactionType.Withdrawal)
    (c : ClientId) :
    (lookup_account (processAll PaymentProcessor.new ts) c).available_funds.val
      = netApplied PaymentProcessor.new ts c := by
  rw [available_foldl PaymentProcessor.new ts c hts]
  show (0 : Int) + _ = _
  rw [Int.zero_add]

/-- C6 witness: ten deposits of 0.1 (scaled 1000) match the exact sum and
give available exactly 1.0 (scaled 10000) — no decimal drift. -/
theorem available_eq_net_applied_witness :
    (lookup_account (processAll PaymentProcessor.new
        tenTenthDeposits) 1).available_funds.val =
      netApplied PaymentProcessor.new tenTenthDeposits 1 ∧
    (lookup_account (processAll PaymentProcessor.new tenTenthDeposits) 1).available_funds
      = Amount.ofWhole 1 :=
  ⟨available_eq_net_applied tenTenthDeposits (by decide) 1, by decide⟩

end ToyPayments
